import Mathlib

/-!
# The pull-request experiment plugin: squashing of presubmit configurations

A shallow embedding of `prow/external-plugins/experiment/pkg/handler/handler.go`.
Go slices are lists, Go maps are association lists with pairwise distinct keys
(the list order stands for the unspecified iteration order of `range`), a nil
pointer is `none`, and a run-time fault (index out of range) is `none`.
-/

namespace Experiment

/-! ## Data model -/

/-- Modelled from the spec: the pod specification `v1.PodSpec`, whose declaration
is outside the sources; the handler only compares it for deep equality and passes
it through, so a container image and a command stand for the payload. -/
structure PodSpec where
  Image : String
  Command : List String
deriving DecidableEq, Repr

/-- Modelled from the spec: the job definition `config.Presubmit`, whose
declaration is outside the sources. The fields are the ones the handler and its
tests touch: the tests set `Name` and `MaxConcurrency` of the embedded `JobBase`,
the handler reads `Name` and compares the separate field `Spec` (a pointer: nil
is `none`, and `reflect.DeepEqual` on it is equality of the option). -/
structure Presubmit where
  Name : String
  MaxConcurrency : Int
  Spec : Option PodSpec
deriving DecidableEq, Repr

/-- A Go `map[string]V`: an association list; the order of the entries is the
order in which `range` happens to visit them. -/
abbrev GoMap (V : Type) := List (String × V)

/-- Go's `v, exists := m[k]`. -/
def GoMap.get {V : Type} (m : GoMap V) (k : String) : Option V :=
  match m with
  | [] => none
  | (k', v) :: rest => if k' = k then some v else GoMap.get rest k

/-- Go's `m[k] = v`: overwrite the entry of `k`, or add one. -/
def GoMap.put {V : Type} (m : GoMap V) (k : String) (v : V) : GoMap V :=
  match m with
  | [] => [(k, v)]
  | (k', v') :: rest => if k' = k then (k, v) :: rest else (k', v') :: GoMap.put rest k v

/-- The keys of a Go map. -/
def GoMap.keys {V : Type} (m : GoMap V) : List String := m.map Prod.fst

/-- A Go map holds every key once. -/
def GoMap.WF {V : Type} (m : GoMap V) : Prop := (GoMap.keys m).Nodup

instance {V : Type} (m : GoMap V) : Decidable (GoMap.WF m) := by
  unfold GoMap.WF; exact inferInstance

/-! ## `squashPresubmits` -/

/-- One turn of the inner loop of `squashPresubmits`, over the state
`(presubmitIsNew, squashedPresubmits)`. -/
def squashInner (headPresubmit : Presubmit) (st : Bool × List Presubmit)
    (basePresubmit : Presubmit) : Bool × List Presubmit :=
  if basePresubmit.Name ≠ headPresubmit.Name then st
  else if headPresubmit.Spec = basePresubmit.Spec then (false, st.2)
  else (false, st.2 ++ [headPresubmit])

/-- One turn of the outer loop of `squashPresubmits`. -/
def squashOuter (originalPresubmits : List Presubmit) (squashedPresubmits : List Presubmit)
    (headPresubmit : Presubmit) : List Presubmit :=
  let r := originalPresubmits.foldl (squashInner headPresubmit) (true, squashedPresubmits)
  if r.1 then r.2 ++ [headPresubmit] else r.2

/-- Given two arrays of presubmits, return a new array containing only the
modified and new ones. -/
def squashPresubmits (originalPresubmits modifiedPresubmits : List Presubmit) :
    List Presubmit :=
  modifiedPresubmits.foldl (squashOuter originalPresubmits) []

/-! ## Test fixtures of `handler_test.go` -/

/-- The job `dont-touch` of the tests: only the name is set. -/
def dontTouch : Presubmit := { Name := "dont-touch", MaxConcurrency := 0, Spec := none }

/-- The job `modify-something` of the tests, with the given `MaxConcurrency`. -/
def modifySomething (n : Int) : Presubmit :=
  { Name := "modify-something", MaxConcurrency := n, Spec := none }

/-- The job `new-job` of `TestSquashPresubmits`. -/
def newJob : Presubmit := { Name := "new-job", MaxConcurrency := 0, Spec := none }

/-- A job with a pod specification that runs the given image. -/
def jobWithSpec (name image : String) : Presubmit :=
  { Name := name, MaxConcurrency := 0, Spec := some { Image := image, Command := [] } }

/-! ## `squashPresubmitsConfigs` and `squashConfigs` -/

/-- One turn of the loop of `squashPresubmitsConfigs`; `entry` is the pair
`repo, headPresubmits` that `range` yields. -/
def squashRepo (originalPresubmits squashedPresubmitConfigs : GoMap (List Presubmit))
    (entry : String × List Presubmit) : GoMap (List Presubmit) :=
  match GoMap.get originalPresubmits entry.1 with
  | none => GoMap.put squashedPresubmitConfigs entry.1 entry.2
  | some basePresubmits =>
    GoMap.put squashedPresubmitConfigs entry.1 (squashPresubmits basePresubmits entry.2)

/-- The per-repository squash: a fresh map filled while ranging over the head map. -/
def squashPresubmitsConfigs (originalPresubmits modifiedPresubmits : GoMap (List Presubmit)) :
    GoMap (List Presubmit) :=
  modifiedPresubmits.foldl (squashRepo originalPresubmits) []

/-- Modelled from the spec: the configuration `config.Config`, whose declaration
is outside the sources. `PresubmitsStatic` is the field the handler squashes;
`PostsubmitsStatic` and `Periodics` (job names only) stand for the rest of a
loaded configuration. -/
structure Config where
  PresubmitsStatic : GoMap (List Presubmit)
  PostsubmitsStatic : GoMap (List String)
  Periodics : List String
deriving DecidableEq, Repr

/-- Go's `new(config.Config)`: every field has its zero value. -/
def Config.zero : Config :=
  { PresubmitsStatic := [], PostsubmitsStatic := [], Periodics := [] }

/-- One turn of the loop of `squashConfigs`. -/
def squashConfig (originalConfigs : GoMap Config) (configs : List Config)
    (entry : String × Config) : List Config :=
  match GoMap.get originalConfigs entry.1 with
  | none => configs ++ [entry.2]
  | some baseConfig =>
    let squashedConfig : Config :=
      { Config.zero with
        PresubmitsStatic :=
          squashPresubmitsConfigs baseConfig.PresubmitsStatic entry.2.PresubmitsStatic }
    configs ++ [squashedConfig]

/-- Squash original and modified configs at the same path, returning an array of
configs that contain only new and modified job configs. -/
def squashConfigs (originalConfigs modifiedConfigs : GoMap Config) : List Config :=
  modifiedConfigs.foldl (squashConfig originalConfigs) []

/-! ## `addRepoRef` -/

/-- Modelled from the spec: the source reference `prowapi.Refs`, whose declaration
is outside the sources: the fields `addRepoRef` sets, and `BaseSHA` for the ones
it leaves at their zero value. -/
structure Refs where
  Org : String
  Repo : String
  RepoLink : String
  BaseRef : String
  BaseSHA : String
  WorkDir : Bool
  CloneDepth : Int
deriving DecidableEq, Repr

/-- Modelled from the spec: the specification of a `prowapi.ProwJob`. -/
structure ProwJobSpec where
  Job : String
  ExtraRefs : List Refs
deriving DecidableEq, Repr

/-- Modelled from the spec: the job `prowapi.ProwJob`, with its generated name. -/
structure ProwJob where
  Name : String
  Spec : ProwJobSpec
deriving DecidableEq, Repr

/-- The loop of Go's `strings.Split` for a one-character separator: `cur` is the
piece read so far. -/
def splitFrom (sep : Char) (cur : List Char) : List Char → List (List Char)
  | [] => [cur]
  | c :: cs => if c = sep then cur :: splitFrom sep [] cs else splitFrom sep (cur ++ [c]) cs

/-- Go's `strings.Split(s, sep)` for a one-character separator. -/
def stringsSplit (s : String) (sep : Char) : List String :=
  (splitFrom sep [] s.data).map String.mk

/-- The loop of `addRepoRef` over the existing extra references, with its `break`. -/
def shouldSetWorkDir : List Refs → Bool
  | [] => true
  | ref :: rest => if ref.WorkDir then false else shouldSetWorkDir rest

/-- Add ref of the original repo which we want to check. `none` is the
index-out-of-range fault of `repoSplit[0], repoSplit[1]`. -/
def addRepoRef (prowJob : ProwJob) (repo : String) : Option ProwJob :=
  let repoSplit := stringsSplit repo '/'
  match repoSplit[0]?, repoSplit[1]? with
  | some org, some name =>
    let ref : Refs :=
      { Org := org
        Repo := name
        RepoLink := "https://github.com/" ++ repo
        BaseRef := "refs/heads/master"
        BaseSHA := ""
        WorkDir := shouldSetWorkDir prowJob.Spec.ExtraRefs
        CloneDepth := 1 }
    some { prowJob with
      Spec := { prowJob.Spec with ExtraRefs := prowJob.Spec.ExtraRefs ++ [ref] } }
  | _, _ => none

/-! ## The event handler

The collaborators outside the sources (the `git` process, the file system, the
configuration loader, `pjutil.NewPresubmit`) are oracles of a `World`; every call
to one of them is recorded in a trace. -/

/-- Modelled from the spec: `github.Repo`, reduced to the field the handler reads. -/
structure Repo where
  HTMLURL : String
deriving DecidableEq, Repr

/-- Modelled from the spec: `github.PullRequestBranch`. -/
structure PullRequestBranch where
  Ref : String
  SHA : String
  Repo : Repo
deriving DecidableEq, Repr

/-- Modelled from the spec: `github.PullRequest`. -/
structure PullRequest where
  Number : Int
  Base : PullRequestBranch
deriving DecidableEq, Repr

/-- Modelled from the spec: `github.PullRequestEvent`. -/
structure PullRequestEvent where
  Number : Int
  PullRequest : PullRequest
  GUID : String
deriving DecidableEq, Repr

/-- The collaborators of the handler: each answers with a value or an error text. -/
structure World where
  /-- Running `git` with an argument vector: the captured output, or an error. -/
  Git : List String → Except String String
  /-- Go's `os.TempDir()`. -/
  OsTempDir : String
  /-- Go's `ioutil.TempDir(dir, pattern)`. -/
  TempDir : String → String → Except String String
  /-- Go's `filepath.Join` of two elements. -/
  Join : String → String → String
  /-- The loader `config.Load(prowConfig, jobConfig)`. -/
  Load : String → String → Except String Config
  /-- The constructor `pjutil.NewPresubmit(pr, baseSHA, job, eventGUID)`. -/
  NewPresubmit : PullRequest → String → Presubmit → String → ProwJob

/-- What the handler does to the outside, in order. -/
inductive Event where
  | tempDir (dir pattern : String)
  | git (args : List String)
  | fatal (msg : String)
  | load (prowConf jobConf : String)
  | newPresubmit (repo job : String)
  | writeFile (filename : String) (job : ProwJob)
  | removeAll (dir : String)
  | logPanic
deriving DecidableEq, Repr

/-- How a piece of code ends: it goes on with a value, returns from the handler,
exits the process, or panics. -/
inductive Flow (α : Type) where
  | next (a : α)
  | ret
  | osExit
  | panic
deriving Repr

/-- A computation of the handler: the events it caused and how it ended. -/
def M (α : Type) : Type := List Event × Flow α

/-- Sequencing: the second part runs only when the first one goes on. -/
def M.bind {α β : Type} (x : M α) (f : α → M β) : M β :=
  match x with
  | (t, Flow.next a) => (t ++ (f a).1, (f a).2)
  | (t, Flow.ret) => (t, Flow.ret)
  | (t, Flow.osExit) => (t, Flow.osExit)
  | (t, Flow.panic) => (t, Flow.panic)

instance : Monad M where
  pure a := ([], Flow.next a)
  bind := M.bind

/-- One recorded call of a collaborator, with its answer. -/
def call {α : Type} (e : Event) (a : α) : M α := ([e], Flow.next a)

/-- The statement `return` of the handler. -/
def ret {α : Type} : M α := ([], Flow.ret)

/-- A run-time panic. -/
def goPanic {α : Type} : M α := ([], Flow.panic)

/-- The call `logrus.WithError(err).Fatal(msg)`: the entry is logged and the
standard logger then exits the process (`os.Exit(1)`); nothing in the sources
replaces its exit function. What follows the call is never run. -/
def Fatal {α : Type} (msg : String) : M α := ([Event.fatal msg], Flow.osExit)

/-- Go's `defer`: `cleanup` runs when the body returns or panics, not when the
process exits. -/
def deferring {α : Type} (cleanup : Event) (body : M α) : M α :=
  match body with
  | (t, Flow.osExit) => (t, Flow.osExit)
  | (t, fl) => (t ++ [cleanup], fl)

/-- The name of the temporary directories of the handler. -/
def gitDirPrefix : String := "prowjob_experiment_"

def PULL_REQUEST_HEAD : String := "prhead"
def PULL_REQUEST_BASE : String := "prbase"

/-- Go's `unicode.IsSpace`. -/
def isSpace (c : Char) : Bool :=
  decide (c.toNat ∈ [9, 10, 11, 12, 13, 32, 0x85, 0xA0, 0x1680, 0x2028, 0x2029, 0x202f,
    0x205f, 0x3000]) || (decide (0x2000 ≤ c.toNat) && decide (c.toNat ≤ 0x200a))

/-- The loop of Go's `strings.Fields`: `cur` is the field read so far. -/
def fieldsFrom (cur : List Char) : List Char → List (List Char)
  | [] => if cur = [] then [] else [cur]
  | c :: cs =>
    if isSpace c then
      if cur = [] then fieldsFrom [] cs else cur :: fieldsFrom [] cs
    else fieldsFrom (cur ++ [c]) cs

/-- Go's `strings.Fields`. -/
def stringsFields (s : String) : List String := (fieldsFrom [] s.data).map String.mk

/-- The function `git_utils.Git`: run the process, record the call. -/
def Git (w : World) (args : List String) : M (Except String String) :=
  call (Event.git args) (w.Git args)

/-- InitRepo initializes a bare git repository at the given path. -/
def InitRepo (w : World) (path : String) (bare : Bool) : M (Option String) := do
  let cmd := ["init"]
  let cmd := if bare = true then cmd ++ ["--bare"] else cmd
  let cmd := cmd ++ [path]
  match (← Git w cmd) with
  | Except.error err => pure (some err)
  | Except.ok _ => pure none

/-- FetchPullRequest fetches the head and the base ref of the given PR locally. -/
def FetchPullRequest (w : World) (repo : String) (pr : PullRequest) : M (Option String) := do
  match (← Git w ["-C", repo, "fetch", "--depth=50", pr.Base.Repo.HTMLURL,
      "+pull/" ++ toString pr.Number ++ "/head:" ++ PULL_REQUEST_HEAD,
      "+" ++ pr.Base.Ref ++ ":" ++ PULL_REQUEST_BASE]) with
  | Except.error err => pure (some err)
  | Except.ok _ => pure none

/-- MergeBase returns the merge base between refA and refB; indexing an empty
field list panics. -/
def MergeBase (w : World) (repo refA refB : String) : M (Except String String) := do
  match (← Git w ["-C", repo, "merge-base", refA, refB]) with
  | Except.error err => pure (Except.error err)
  | Except.ok out =>
    match (stringsFields out)[0]? with
    | some f => pure (Except.ok f)
    | none => goPanic

/-- ChangedFiles returns the names of the files that differ between `fromRef` and
`toRef`, restricted by change type and path pattern. -/
def ChangedFiles (w : World) (repo fromRef toRef filter diffFilter : String) :
    M (Except String (List String)) := do
  match (← Git w ["-C", repo, "diff", "--name-only", "--diff-filter=" ++ filter,
      fromRef ++ "..." ++ toRef, diffFilter]) with
  | Except.error err => pure (Except.error err)
  | Except.ok out => pure (Except.ok (stringsFields out))

/-- WorktreeAdd adds a worktree at the given dest with the specified ref. -/
def WorktreeAdd (w : World) (repo ref dest : String) : M (Option String) := do
  match (← Git w ["-C", repo, "worktree", "add", dest, ref]) with
  | Except.error err => pure (some err)
  | Except.ok _ => pure none

/-- Create and return a temp directory at the specified path or use the system
temp dir if a path was not explicitly set. -/
def makeWorkingDirectory (w : World) (wd : String) : M (Except String String) := do
  let wd := if wd = "" then w.OsTempDir else wd
  match (← call (Event.tempDir wd gitDirPrefix) (w.TempDir wd gitDirPrefix)) with
  | Except.error err => pure (Except.error err)
  | Except.ok dir => pure (Except.ok dir)

/-- Create a new work tree for the local ref out of the root. -/
def makeWorkTreeForRef (w : World) (root ref : String) : M (Except String String) := do
  let wd := w.Join root ref
  match (← WorktreeAdd w root ref wd) with
  | some err => pure (Except.error err)
  | none => pure (Except.ok wd)

/-- One turn of the loop of `loadConfigs`: a path that fails to load is skipped. -/
def loadConfig (w : World) (root prowConfPath : String) (configPaths : GoMap Config)
    (jobConfPath : String) : M (GoMap Config) := do
  let prowConfInRepo := w.Join root prowConfPath
  let jobConfInRepo := w.Join root jobConfPath
  match (← call (Event.load prowConfInRepo jobConfInRepo)
      (w.Load prowConfInRepo jobConfInRepo)) with
  | Except.error _ => pure configPaths
  | Except.ok conf => pure (GoMap.put configPaths jobConfPath conf)

/-- The loader of the configurations found at the given paths of a tree. -/
def loadConfigs (w : World) (root prowConfPath : String) (jobConfPaths : List String) :
    M (GoMap Config) :=
  jobConfPaths.foldlM (loadConfig w root prowConfPath) []

/-- One job of `generatePresubmits`: build it, add the repository reference. -/
def generatePresubmit (w : World) (pre : PullRequestEvent) (repo : String)
    (jobs : List ProwJob) (presubmit : Presubmit) : M (List ProwJob) := do
  let pj ← call (Event.newPresubmit repo presubmit.Name)
    (w.NewPresubmit pre.PullRequest pre.PullRequest.Base.SHA presubmit pre.GUID)
  match addRepoRef pj repo with
  | none => goPanic
  | some pj => pure (jobs ++ [pj])

/-- The jobs of one configuration, repository by repository. -/
def generatePresubmits (w : World) (conf : Config) (pre : PullRequestEvent) :
    M (List ProwJob) :=
  conf.PresubmitsStatic.foldlM
    (fun jobs entry => entry.2.foldlM (generatePresubmit w pre entry.1) jobs) []

/-- Generate the ProwJobs from the configs and the PR event. -/
def generateProwJobs (w : World) (configs : List Config) (pre : PullRequestEvent) :
    M (List ProwJob) :=
  configs.foldlM (fun jobs conf => do
    let more ← generatePresubmits w conf pre
    pure (jobs ++ more)) []

/-- The writer of the generated jobs, one file per job. -/
def writeJobs (jobs : List ProwJob) : M Unit :=
  jobs.forM (fun job => call (Event.writeFile ("/tmp/" ++ job.Name ++ ".yaml") job) ())

/-- The body of `HandlePullRequestEvent` once the working directory exists. -/
def handleIn (w : World) (event : PullRequestEvent)
    (prowConfigPath jobConfigPatterns workDir : String) : M Unit := do
  match (← InitRepo w workDir true) with
  | some _ => do Fatal "could not initialize git repo"; ret
  | none =>
  match (← FetchPullRequest w workDir event.PullRequest) with
  | some _ => do Fatal "could not fetch pull request"; ret
  | none =>
  let mergeBase ← (do
    match (← MergeBase w workDir PULL_REQUEST_BASE PULL_REQUEST_HEAD) with
    | Except.error _ => do
      Fatal "could not find merge base for the pull request"
      pure ""
    | Except.ok mergeBase => pure mergeBase)
  match (← ChangedFiles w workDir mergeBase PULL_REQUEST_HEAD "M" jobConfigPatterns) with
  | Except.error _ => do Fatal "could not extract modified files"; ret
  | Except.ok modifiedJobConfigs =>
  match (← ChangedFiles w workDir mergeBase PULL_REQUEST_HEAD "A" jobConfigPatterns) with
  | Except.error _ => do Fatal "could not extract newly added files"; ret
  | Except.ok newJobConfigs =>
  if modifiedJobConfigs.length + newJobConfigs.length = 0 then ret else
  match (← makeWorkTreeForRef w workDir PULL_REQUEST_HEAD) with
  | Except.error _ => do Fatal "could not create work tree for PR's HEAD"; ret
  | Except.ok headTreeRoot =>
  match (← makeWorkTreeForRef w workDir mergeBase) with
  | Except.error _ => do Fatal "could not make work tree for PR's merge base"; ret
  | Except.ok baseTreeRoot => do
    let originalConfigs ← loadConfigs w baseTreeRoot prowConfigPath modifiedJobConfigs
    let modifiedConfigs ← loadConfigs w headTreeRoot prowConfigPath modifiedJobConfigs
    let allConfigs := squashConfigs originalConfigs modifiedConfigs
    let newConfigs ← loadConfigs w headTreeRoot prowConfigPath newJobConfigs
    let allConfigs := newConfigs.foldl (fun acc entry => acc ++ [entry.2]) allConfigs
    let prowJobs ← generateProwJobs w allConfigs event
    writeJobs prowJobs

/-- The body of `HandlePullRequestEvent`, below its `defer logOnPanic()`. -/
def handleBody (w : World) (event : PullRequestEvent)
    (prowConfigPath jobConfigPatterns wd : String) : M Unit := do
  match (← makeWorkingDirectory w wd) with
  | Except.error _ => do Fatal "could not initialize working directory"; ret
  | Except.ok workDir =>
    deferring (Event.removeAll workDir)
      (handleIn w event prowConfigPath jobConfigPatterns workDir)

/-- How a run of the handler ends. -/
inductive Outcome where
  | returned
  | exited
  | recovered
deriving DecidableEq, Repr

/-- HandlePullRequestEvent handles new pull request events: the trace of the run
and its end; the deferred `logOnPanic` turns a panic into a logged return. -/
def HandlePullRequestEvent (w : World) (event : PullRequestEvent)
    (prowConfigPath jobConfigPatterns wd : String) : List Event × Outcome :=
  match handleBody w event prowConfigPath jobConfigPatterns wd with
  | (t, Flow.osExit) => (t, Outcome.exited)
  | (t, Flow.panic) => (t ++ [Event.logPanic], Outcome.recovered)
  | (t, _) => (t, Outcome.returned)

/-- The jobs a trace built through `pjutil.NewPresubmit`. -/
def generated : List Event → List String
  | [] => []
  | Event.newPresubmit _ job :: rest => job :: generated rest
  | _ :: rest => generated rest

/-- The jobs a trace wrote. -/
def written : List Event → List ProwJob
  | [] => []
  | Event.writeFile _ job :: rest => job :: written rest
  | _ :: rest => written rest

/-! ## Auxiliary definitions for the statements

These definitions are not part of the handler: they name what the theorems say
about it, and the inputs on which the theorems are evaluated. -/

/-- The base jobs named like `h` whose `Spec` is not deep-equal to the one of `h`. -/
def differing (base : List Presubmit) (h : Presubmit) : Nat :=
  base.countP (fun b => decide (b.Name = h.Name ∧ h.Spec ≠ b.Spec))

/-- No base job is named like `h`. -/
def isNew (base : List Presubmit) (h : Presubmit) : Bool :=
  base.all (fun b => decide (b.Name ≠ h.Name))

/-- What one head job adds to the result. -/
def contribution (base : List Presubmit) (h : Presubmit) : List Presubmit :=
  if isNew base h then [h] else List.replicate (differing base h) h

/-- The entry of one repository of the head map in the squashed map. -/
def squashedRepo (base : GoMap (List Presubmit)) (repo : String) (hp : List Presubmit) :
    List Presubmit :=
  match GoMap.get base repo with
  | none => hp
  | some bp => squashPresubmits bp hp

/-- What `squashConfigs` appends for one entry `path, headConfig` of the head map. -/
def squashedEntry (originalConfigs : GoMap Config) (entry : String × Config) : Config :=
  match GoMap.get originalConfigs entry.1 with
  | none => entry.2
  | some baseConfig =>
    { Config.zero with
      PresubmitsStatic :=
        squashPresubmitsConfigs baseConfig.PresubmitsStatic entry.2.PresubmitsStatic }

/-- A job is new for a base list (no base job has its name) or modified (base has
jobs of its name, and each of them has another `Spec`); a job that base holds
with the same name and a deep-equal `Spec` is neither. -/
def NewOrModified (base : List Presubmit) (j : Presubmit) : Prop :=
  (∀ b ∈ base, b.Name ≠ j.Name) ∨
    ((∃ b ∈ base, b.Name = j.Name) ∧ ∀ b ∈ base, b.Name = j.Name → b.Spec ≠ j.Spec)

instance (base : List Presubmit) (j : Presubmit) : Decidable (NewOrModified base j) := by
  unfold NewOrModified; exact inferInstance

/-- Two jobs of one name with different `Spec`. -/
def repeatedJobs : List Presubmit := [dontTouch, jobWithSpec "dont-touch" "golang"]

/-- Configurations in which the one repository holds `repeatedJobs`. -/
def repeatedConfigs : GoMap Config :=
  [("foo/path", { Config.zero with PresubmitsStatic := [("foo/bar", repeatedJobs)] })]

/-- The base map of `TestSquashPresubmitConfigs`. -/
def testOriginalPresubmits : GoMap (List Presubmit) :=
  [("foo/bar", [dontTouch, modifySomething 1]), ("foo/baz", [dontTouch])]

/-- The head map after `TestSquashPresubmitConfigs`, with one more repository. -/
def testModifiedPresubmits : GoMap (List Presubmit) :=
  [("foo/bar", [dontTouch, modifySomething 2]), ("foo/baz", [dontTouch, newJob]),
    ("foo/new", [dontTouch])]

/-- The base configurations of `TestSquashConfigs`. -/
def testOriginalConfigs : GoMap Config :=
  [("foo/path", { Config.zero with PresubmitsStatic := testOriginalPresubmits })]

/-- The head configuration of `TestSquashConfigs` at `foo/path`, with a periodic job. -/
def modifiedConfig : Config :=
  { Config.zero with PresubmitsStatic := testModifiedPresubmits, Periodics := ["nightly"] }

/-- A configuration at a path that base does not have. -/
def addedConfig : Config :=
  { Config.zero with Periodics := ["weekly"] }

/-- The head configurations of `TestSquashConfigs`, with one more path. -/
def testModifiedConfigs : GoMap Config :=
  [("foo/path", modifiedConfig), ("foo/added", addedConfig)]

/-- The characters of `s` up to its first separator. -/
def upToSep (sep : Char) (s : List Char) : List Char :=
  s.takeWhile (fun c => decide (c ≠ sep))

/-- The characters of `s` behind its first separator. -/
def afterSep (sep : Char) (s : List Char) : List Char :=
  (s.dropWhile (fun c => decide (c ≠ sep))).drop 1

/-- A job that already has an extra reference with the working-directory flag. -/
def jobWithWorkDir : ProwJob :=
  { Name := "job-1"
    Spec := { Job := "modify-something"
              ExtraRefs := [{ Org := "foo", Repo := "baz", RepoLink := "", BaseRef := "master",
                              BaseSHA := "", WorkDir := true, CloneDepth := 0 }] } }

/-- The reference that `addRepoRef` builds. -/
def repoRef (prowJob : ProwJob) (repo : String) : Refs :=
  { Org := String.mk (upToSep '/' repo.data)
    Repo := String.mk (upToSep '/' (afterSep '/' repo.data))
    RepoLink := "https://github.com/" ++ repo
    BaseRef := "refs/heads/master"
    BaseSHA := ""
    WorkDir := shouldSetWorkDir prowJob.Spec.ExtraRefs
    CloneDepth := 1 }

/-- The directory under which the working directory is made. -/
def workRoot (w : World) (wd : String) : String := if wd = "" then w.OsTempDir else wd

/-- The arguments of the `git init` of the handler. -/
def initArgs (workDir : String) : List String := ["init", "--bare", workDir]

/-- The arguments of the `git fetch` of the handler. -/
def fetchArgs (workDir : String) (pr : PullRequest) : List String :=
  ["-C", workDir, "fetch", "--depth=50", pr.Base.Repo.HTMLURL,
    "+pull/" ++ toString pr.Number ++ "/head:" ++ PULL_REQUEST_HEAD,
    "+" ++ pr.Base.Ref ++ ":" ++ PULL_REQUEST_BASE]

/-- The arguments of the `git merge-base` of the handler. -/
def mergeBaseArgs (workDir : String) : List String :=
  ["-C", workDir, "merge-base", PULL_REQUEST_BASE, PULL_REQUEST_HEAD]

/-- The arguments of a `git diff` of the handler. -/
def diffArgs (workDir mergeBase filter patterns : String) : List String :=
  ["-C", workDir, "diff", "--name-only", "--diff-filter=" ++ filter,
    mergeBase ++ "..." ++ PULL_REQUEST_HEAD, patterns]

/-- A world in which the step named `bad` fails and every other step succeeds. -/
def failingWorld (bad : String) : World :=
  { Git := fun args => if bad ∈ args then Except.error "failed" else Except.ok "c0ffee"
    OsTempDir := "/tmp"
    TempDir := fun dir pattern =>
      if bad = "tempdir" then Except.error "failed" else Except.ok (dir ++ "/" ++ pattern ++ "1")
    Join := fun a b => a ++ "/" ++ b
    Load := fun _ _ =>
      Except.ok { Config.zero with PresubmitsStatic := [("foo/bar", [dontTouch])] }
    NewPresubmit := fun _ _ job _ => { Name := "job-1", Spec := { Job := job.Name, ExtraRefs := [] } } }

/-- An event for pull request 7 of `foo/bar`. -/
def testEvent : PullRequestEvent :=
  { Number := 7
    PullRequest := { Number := 7
                     Base := { Ref := "master", SHA := "abc", Repo := { HTMLURL := "https://github.com/foo/bar" } } }
    GUID := "guid" }

/-! ## Lemmas on `squashPresubmits` -/

theorem foldl_squashInner (h : Presubmit) (base : List Presubmit) (b : Bool)
    (acc : List Presubmit) :
    base.foldl (squashInner h) (b, acc)
      = (b && isNew base h, acc ++ List.replicate (differing base h) h) := by
  induction base generalizing b acc with
  | nil => simp [isNew, differing]
  | cons x xs ih =>
    simp only [List.foldl_cons]
    by_cases hn : x.Name = h.Name
    · by_cases hs : h.Spec = x.Spec
      · have : squashInner h (b, acc) x = (false, acc) := by simp [squashInner, hn, hs]
        rw [this, ih]
        simp [isNew, differing, hn, hs]
      · have : squashInner h (b, acc) x = (false, acc ++ [h]) := by
          simp [squashInner, hn, hs]
        rw [this, ih]
        simp [isNew, differing, hn, hs, List.countP_cons, List.replicate_succ,
          List.append_assoc]
    · have : squashInner h (b, acc) x = (b, acc) := by simp [squashInner, hn]
      rw [this, ih]
      simp [isNew, differing, hn, List.countP_cons]

theorem squashOuter_eq (base acc : List Presubmit) (h : Presubmit) :
    squashOuter base acc h = acc ++ contribution base h := by
  unfold squashOuter contribution
  simp only [foldl_squashInner, Bool.true_and]
  by_cases hn : isNew base h = true
  · have hd : differing base h = 0 := by
      unfold differing
      rw [List.countP_eq_zero]
      intro b hb
      have := (List.all_eq_true.mp hn) b hb
      simp at this
      simp [this]
    simp [hn, hd]
  · simp [hn]

theorem foldl_squashOuter (base head acc : List Presubmit) :
    head.foldl (squashOuter base) acc = acc ++ head.flatMap (contribution base) := by
  induction head generalizing acc with
  | nil => simp
  | cons x xs ih => simp [List.foldl_cons, ih, squashOuter_eq, List.append_assoc]

/-- The result is the concatenation of what each head job contributes. -/
theorem squashPresubmits_eq (base head : List Presubmit) :
    squashPresubmits base head = head.flatMap (contribution base) := by
  simp [squashPresubmits, foldl_squashOuter]

theorem count_contribution (base : List Presubmit) (x h : Presubmit) :
    (contribution base x).count h
      = if x = h then (if isNew base h then 1 else differing base h) else 0 := by
  unfold contribution
  by_cases hx : x = h
  · subst hx
    by_cases hn : isNew base x = true <;> simp [hn, List.count_replicate]
  · by_cases hn : isNew base x = true
    · simp [hn, hx, List.count_cons, List.count_nil]
    · simp [hn, hx, List.count_replicate]

/-- How often a job occurs in the result. -/
theorem count_squashPresubmits (base head : List Presubmit) (h : Presubmit) :
    (squashPresubmits base head).count h
      = head.count h * (if isNew base h then 1 else differing base h) := by
  rw [squashPresubmits_eq]
  induction head with
  | nil => simp
  | cons x xs ih =>
    rw [List.flatMap_cons, List.count_append, ih, count_contribution, List.count_cons]
    by_cases hx : x = h
    · subst hx
      by_cases hn : isNew base x = true <;> simp [hn, Nat.add_mul, Nat.add_comm]
    · simp [hx]

theorem mem_squashPresubmits (base head : List Presubmit) (h : Presubmit) :
    h ∈ squashPresubmits base head ↔
      h ∈ head ∧ ((∀ b ∈ base, b.Name ≠ h.Name) ∨
        ∃ b ∈ base, b.Name = h.Name ∧ b.Spec ≠ h.Spec) := by
  have hnew : isNew base h = true ↔ ∀ b ∈ base, b.Name ≠ h.Name := by
    simp [isNew, List.all_eq_true]
  have hdiff : 0 < differing base h ↔ ∃ b ∈ base, b.Name = h.Name ∧ b.Spec ≠ h.Spec := by
    unfold differing
    rw [List.countP_pos_iff]
    constructor
    · rintro ⟨b, hb, hp⟩
      simp only [decide_eq_true_eq] at hp
      exact ⟨b, hb, hp.1, fun e => hp.2 e.symm⟩
    · rintro ⟨b, hb, h1, h2⟩
      exact ⟨b, hb, by simpa using ⟨h1, fun e => h2 e.symm⟩⟩
  rw [← List.count_pos_iff, count_squashPresubmits, Nat.pos_iff_ne_zero,
    Nat.mul_ne_zero_iff, ← Nat.pos_iff_ne_zero, ← Nat.pos_iff_ne_zero, List.count_pos_iff]
  by_cases hn : isNew base h = true
  · have := hnew.mp hn
    rw [if_pos hn]
    exact ⟨fun hh => ⟨hh.1, Or.inl this⟩, fun hh => ⟨hh.1, Nat.one_pos⟩⟩
  · have hn' : ¬ ∀ b ∈ base, b.Name ≠ h.Name := fun hc => hn (hnew.mpr hc)
    rw [if_neg hn, hdiff]
    constructor
    · rintro ⟨h1, h2⟩; exact ⟨h1, Or.inr h2⟩
    · rintro ⟨h1, h2 | h2⟩
      · exact absurd h2 hn'
      · exact ⟨h1, h2⟩

theorem mem_head_of_mem_squashPresubmits (base head : List Presubmit) (x : Presubmit)
    (hx : x ∈ squashPresubmits base head) : x ∈ head :=
  ((mem_squashPresubmits base head x).mp hx).1

theorem isNew_perm {base base' : List Presubmit} (hp : base.Perm base') (h : Presubmit) :
    isNew base' h = isNew base h := by
  unfold isNew
  rw [Bool.eq_iff_iff, List.all_eq_true, List.all_eq_true]
  exact ⟨fun hh b hb => hh b (hp.mem_iff.mp hb), fun hh b hb => hh b (hp.mem_iff.mpr hb)⟩

theorem differing_perm {base base' : List Presubmit} (hp : base.Perm base') (h : Presubmit) :
    differing base' h = differing base h := by
  unfold differing
  exact (hp.countP_eq _).symm

/-- Reordering the inputs reorders the result. -/
theorem squashPresubmits_perm {base base' head head' : List Presubmit}
    (hb : base.Perm base') (hh : head.Perm head') :
    (squashPresubmits base' head').Perm (squashPresubmits base head) := by
  have hc : contribution base' = contribution base := by
    funext h
    simp [contribution, isNew_perm hb, differing_perm hb]
  rw [squashPresubmits_eq, squashPresubmits_eq, hc]
  exact (hh.flatMap_right _).symm

/-! ## The claims on `squashPresubmits` -/

/-- C1, evaluated on the lists of `TestSquashPresubmits`: the head job
`modify-something`, which differs from the base job of that name in
`MaxConcurrency` only, is dropped; the result is `[new-job]` and not the list
`[modify-something(MaxConcurrency=2), new-job]` that the test expects. -/
theorem squashPresubmits_drops_maxConcurrency_change :
    squashPresubmits [dontTouch, modifySomething 1] [dontTouch, modifySomething 2, newJob]
        = [newJob] ∧
      squashPresubmits [dontTouch, modifySomething 1] [dontTouch, modifySomething 2, newJob]
        ≠ [modifySomething 2, newJob] := by
  decide

/-- C2 as stated fails: with two base jobs of the name of `h`, one with the `Spec`
of `h` and one with another `Spec`, `h` is an element of the result. -/
theorem squashPresubmits_unchanged_counterexample :
    dontTouch ∈ [dontTouch] ∧
      (∃ b ∈ [dontTouch, jobWithSpec "dont-touch" "golang"],
        b.Name = dontTouch.Name ∧ b.Spec = dontTouch.Spec) ∧
      dontTouch ∈ squashPresubmits [dontTouch, jobWithSpec "dont-touch" "golang"] [dontTouch] := by
  decide

/-- C2, amended: a head job `h` for which base holds a job of the same name, and
for which every base job of that name has a `Spec` deep-equal to the one of `h`,
is not an element of `squashPresubmits base head`. -/
theorem squashPresubmits_unchanged_dropped (base head : List Presubmit) (h : Presubmit)
    (_hh : h ∈ head) (hex : ∃ b ∈ base, b.Name = h.Name)
    (hall : ∀ b ∈ base, b.Name = h.Name → b.Spec = h.Spec) :
    h ∉ squashPresubmits base head := by
  rw [mem_squashPresubmits]
  rintro ⟨_, hnew | ⟨b, hb, hn, hs⟩⟩
  · obtain ⟨b, hb, hn⟩ := hex
    exact hnew b hb hn
  · exact hs (hall b hb hn)

theorem squashPresubmits_unchanged_dropped_witness :
    dontTouch ∈ [dontTouch, modifySomething 2, newJob] ∧
      dontTouch ∉ squashPresubmits [dontTouch, modifySomething 1]
        [dontTouch, modifySomething 2, newJob] :=
  ⟨by decide, squashPresubmits_unchanged_dropped [dontTouch, modifySomething 1]
    [dontTouch, modifySomething 2, newJob] dontTouch (by decide) (by decide) (by decide)⟩

/-- C3 as stated fails: a job that head holds twice and base does not name occurs
twice in the result. -/
theorem squashPresubmits_new_once_counterexample :
    newJob ∈ [newJob, newJob] ∧ (∀ b ∈ ([] : List Presubmit), b.Name ≠ newJob.Name) ∧
      (squashPresubmits [] [newJob, newJob]).count newJob = 2 := by
  decide

/-- C3, amended: a head job whose name is the name of no base job occurs in
`squashPresubmits base head` as often as it occurs in head: once per head entry,
and so exactly once when head holds it once. -/
theorem squashPresubmits_new_kept (base head : List Presubmit) (h : Presubmit)
    (_hh : h ∈ head) (hnew : ∀ b ∈ base, b.Name ≠ h.Name) :
    (squashPresubmits base head).count h = head.count h ∧
      (head.count h = 1 → (squashPresubmits base head).count h = 1) := by
  have hn : isNew base h = true := by
    simp only [isNew, List.all_eq_true, decide_eq_true_eq]
    exact hnew
  have hc : (squashPresubmits base head).count h = head.count h := by
    rw [count_squashPresubmits, if_pos hn, Nat.mul_one]
  exact ⟨hc, fun h1 => hc.trans h1⟩

theorem squashPresubmits_new_kept_witness :
    (squashPresubmits [dontTouch, modifySomething 1]
        [dontTouch, modifySomething 2, newJob]).count newJob
      = [dontTouch, modifySomething 2, newJob].count newJob ∧
    ([dontTouch, modifySomething 2, newJob].count newJob = 1 →
      (squashPresubmits [dontTouch, modifySomething 1]
        [dontTouch, modifySomething 2, newJob]).count newJob = 1) :=
  squashPresubmits_new_kept [dontTouch, modifySomething 1]
    [dontTouch, modifySomething 2, newJob] newJob (by decide) (by decide)

/-- C4 as stated fails: a job that head holds twice, with one base job of its name
and another `Spec`, occurs twice in the result, not once. -/
theorem squashPresubmits_modified_counterexample :
    dontTouch ∈ [dontTouch, dontTouch] ∧
      (∃ b ∈ [jobWithSpec "dont-touch" "golang"], b.Name = dontTouch.Name) ∧
      differing [jobWithSpec "dont-touch" "golang"] dontTouch = 1 ∧
      (squashPresubmits [jobWithSpec "dont-touch" "golang"] [dontTouch, dontTouch]).count
        dontTouch = 2 := by
  decide

/-- C4, amended: for a head job `h` with a base job of its name, the result holds,
for each occurrence of `h` in head, one copy of `h` per base job of that name whose
`Spec` is not deep-equal to the one of `h`; `h` is in the result as soon as one
such base job exists; and every entry of the result is an entry of head. -/
theorem squashPresubmits_modified_kept (base head : List Presubmit) (h : Presubmit)
    (hh : h ∈ head) (hex : ∃ b ∈ base, b.Name = h.Name) :
    (squashPresubmits base head).count h = head.count h * differing base h ∧
      ((∃ b ∈ base, b.Name = h.Name ∧ b.Spec ≠ h.Spec) → h ∈ squashPresubmits base head) ∧
      (∀ x ∈ squashPresubmits base head, x ∈ head) := by
  have hn : ¬ isNew base h = true := by
    simp only [isNew, List.all_eq_true, decide_eq_true_eq]
    intro hc
    obtain ⟨b, hb, hne⟩ := hex
    exact hc b hb hne
  refine ⟨?_, ?_, ?_⟩
  · rw [count_squashPresubmits, if_neg hn]
  · intro hd
    exact (mem_squashPresubmits base head h).mpr ⟨hh, Or.inr hd⟩
  · intro x hx
    exact mem_head_of_mem_squashPresubmits base head x hx

theorem squashPresubmits_modified_kept_witness :
    (squashPresubmits [dontTouch, jobWithSpec "modify-something" "golang"]
        [dontTouch, modifySomething 2, newJob]).count (modifySomething 2)
      = [dontTouch, modifySomething 2, newJob].count (modifySomething 2)
        * differing [dontTouch, jobWithSpec "modify-something" "golang"] (modifySomething 2) ∧
    ((∃ b ∈ [dontTouch, jobWithSpec "modify-something" "golang"],
        b.Name = (modifySomething 2).Name ∧ b.Spec ≠ (modifySomething 2).Spec) →
      modifySomething 2 ∈ squashPresubmits [dontTouch, jobWithSpec "modify-something" "golang"]
        [dontTouch, modifySomething 2, newJob]) ∧
    (∀ x ∈ squashPresubmits [dontTouch, jobWithSpec "modify-something" "golang"]
        [dontTouch, modifySomething 2, newJob], x ∈ [dontTouch, modifySomething 2, newJob]) :=
  squashPresubmits_modified_kept [dontTouch, jobWithSpec "modify-something" "golang"]
    [dontTouch, modifySomething 2, newJob] (modifySomething 2) (by decide) (by decide)

/-- C5: for lists whose job names are distinct within each list, permuting base
and head permutes the result of `squashPresubmits`, which so keeps its set of
elements. -/
theorem squashPresubmits_order_insensitive (base base' head head' : List Presubmit)
    (_hbn : (base.map Presubmit.Name).Nodup) (_hhn : (head.map Presubmit.Name).Nodup)
    (hb : base.Perm base') (hh : head.Perm head') :
    (squashPresubmits base' head').Perm (squashPresubmits base head) ∧
      ∀ x, x ∈ squashPresubmits base' head' ↔ x ∈ squashPresubmits base head :=
  ⟨squashPresubmits_perm hb hh, fun _ => (squashPresubmits_perm hb hh).mem_iff⟩

theorem squashPresubmits_order_insensitive_witness :
    (squashPresubmits [jobWithSpec "modify-something" "golang", dontTouch]
        [newJob, dontTouch, modifySomething 2]).Perm
      (squashPresubmits [dontTouch, jobWithSpec "modify-something" "golang"]
        [dontTouch, modifySomething 2, newJob]) ∧
    ∀ x, x ∈ squashPresubmits [jobWithSpec "modify-something" "golang", dontTouch]
        [newJob, dontTouch, modifySomething 2] ↔
      x ∈ squashPresubmits [dontTouch, jobWithSpec "modify-something" "golang"]
        [dontTouch, modifySomething 2, newJob] :=
  squashPresubmits_order_insensitive [dontTouch, jobWithSpec "modify-something" "golang"]
    [jobWithSpec "modify-something" "golang", dontTouch]
    [dontTouch, modifySomething 2, newJob] [newJob, dontTouch, modifySomething 2]
    (by decide) (by decide) (by decide) (by decide)

/-! ## Lemmas on Go maps -/

theorem GoMap.get_put {V : Type} (m : GoMap V) (k k' : String) (v : V) :
    GoMap.get (GoMap.put m k v) k' = if k = k' then some v else GoMap.get m k' := by
  induction m with
  | nil => simp [GoMap.put, GoMap.get]
  | cons e rest ih =>
    obtain ⟨k0, v0⟩ := e
    by_cases h0 : k0 = k
    · subst h0
      by_cases h1 : k0 = k' <;> simp [GoMap.put, GoMap.get, h1]
    · by_cases h1 : k0 = k'
      · subst h1
        simp [GoMap.put, GoMap.get, h0, Ne.symm h0]
      · simp [GoMap.put, GoMap.get, h0, h1, ih]

theorem GoMap.mem_keys_iff {V : Type} (m : GoMap V) (k : String) :
    k ∈ GoMap.keys m ↔ (GoMap.get m k).isSome = true := by
  induction m with
  | nil => simp [GoMap.keys, GoMap.get]
  | cons e rest ih =>
    obtain ⟨k0, v0⟩ := e
    by_cases h0 : k0 = k
    · simp [GoMap.keys, GoMap.get, h0]
    · have ih' : k ∈ List.map Prod.fst rest ↔ (GoMap.get rest k).isSome = true := ih
      simp [GoMap.keys, GoMap.get, h0, Ne.symm h0, ih']

theorem GoMap.get_none_of_not_mem {V : Type} (m : GoMap V) (k : String)
    (h : k ∉ GoMap.keys m) : GoMap.get m k = none := by
  rw [GoMap.mem_keys_iff] at h
  cases hg : GoMap.get m k with
  | none => rfl
  | some v => simp [hg] at h

theorem GoMap.mem_keys_put {V : Type} (m : GoMap V) (k k' : String) (v : V) :
    k' ∈ GoMap.keys (GoMap.put m k v) ↔ k' = k ∨ k' ∈ GoMap.keys m := by
  rw [GoMap.mem_keys_iff, GoMap.mem_keys_iff, GoMap.get_put]
  by_cases h : k = k'
  · simp [h]
  · simp [h, Ne.symm h]

theorem GoMap.wf_put {V : Type} (m : GoMap V) (k : String) (v : V) (h : GoMap.WF m) :
    GoMap.WF (GoMap.put m k v) := by
  induction m with
  | nil => simp [GoMap.put, GoMap.WF, GoMap.keys]
  | cons e rest ih =>
    obtain ⟨k0, v0⟩ := e
    have hk : k0 ∉ GoMap.keys rest ∧ GoMap.WF rest := by
      simpa [GoMap.WF, GoMap.keys] using h
    by_cases h0 : k0 = k
    · subst h0
      simpa [GoMap.put, GoMap.WF, GoMap.keys] using h
    · have hnot : k0 ∉ GoMap.keys (GoMap.put rest k v) := by
        rw [GoMap.mem_keys_put]
        rintro (h1 | h1)
        · exact h0 h1
        · exact hk.1 h1
      have hwf := ih hk.2
      simp only [GoMap.put, h0, if_false]
      show ((k0 :: GoMap.keys (GoMap.put rest k v))).Nodup
      exact List.nodup_cons.mpr ⟨hnot, hwf⟩

/-! ## Lemmas on `squashPresubmitsConfigs` and `squashConfigs` -/

theorem squashRepo_eq (base acc : GoMap (List Presubmit)) (entry : String × List Presubmit) :
    squashRepo base acc entry = GoMap.put acc entry.1 (squashedRepo base entry.1 entry.2) := by
  unfold squashRepo squashedRepo
  cases GoMap.get base entry.1 <;> rfl

theorem get_foldl_squashRepo (base head acc : GoMap (List Presubmit)) (hwf : GoMap.WF head)
    (repo : String) :
    GoMap.get (head.foldl (squashRepo base) acc) repo =
      match GoMap.get head repo with
      | some hp => some (squashedRepo base repo hp)
      | none => GoMap.get acc repo := by
  induction head generalizing acc with
  | nil => simp [GoMap.get]
  | cons e rest ih =>
    obtain ⟨k0, v0⟩ := e
    have hk : k0 ∉ GoMap.keys rest ∧ GoMap.WF rest := by
      simpa [GoMap.WF, GoMap.keys] using hwf
    rw [List.foldl_cons, ih _ hk.2, squashRepo_eq, GoMap.get_put]
    by_cases h0 : k0 = repo
    · subst h0
      simp [GoMap.get, GoMap.get_none_of_not_mem rest k0 hk.1]
    · simp [GoMap.get, h0]

theorem wf_foldl_squashRepo (base head acc : GoMap (List Presubmit)) (hacc : GoMap.WF acc) :
    GoMap.WF (head.foldl (squashRepo base) acc) := by
  induction head generalizing acc with
  | nil => simpa using hacc
  | cons e rest ih =>
    rw [List.foldl_cons]
    apply ih
    rw [squashRepo_eq]
    exact GoMap.wf_put _ _ _ hacc

theorem get_squashPresubmitsConfigs (base head : GoMap (List Presubmit))
    (hwf : GoMap.WF head) (repo : String) :
    GoMap.get (squashPresubmitsConfigs base head) repo =
      (GoMap.get head repo).map (squashedRepo base repo) := by
  unfold squashPresubmitsConfigs
  rw [get_foldl_squashRepo base head [] hwf repo]
  cases GoMap.get head repo <;> simp [GoMap.get]

theorem squashPresubmits_self (l : List Presubmit)
    (hl : ∀ a ∈ l, ∀ b ∈ l, a.Name = b.Name → a.Spec = b.Spec) :
    squashPresubmits l l = [] := by
  rw [List.eq_nil_iff_forall_not_mem]
  intro h hh
  rw [mem_squashPresubmits] at hh
  obtain ⟨hmem, hnew | ⟨b, hb, hn, hs⟩⟩ := hh
  · exact hnew h hmem rfl
  · exact hs (hl b hb h hmem hn)

theorem squashConfig_eq (base : GoMap Config) (configs : List Config)
    (entry : String × Config) :
    squashConfig base configs entry = configs ++ [squashedEntry base entry] := by
  unfold squashConfig squashedEntry
  cases GoMap.get base entry.1 <;> rfl

theorem foldl_squashConfig (base head : GoMap Config) (acc : List Config) :
    head.foldl (squashConfig base) acc = acc ++ head.map (squashedEntry base) := by
  induction head generalizing acc with
  | nil => simp
  | cons e rest ih => simp [List.foldl_cons, ih, squashConfig_eq, List.append_assoc]

theorem squashConfigs_eq (base head : GoMap Config) :
    squashConfigs base head = head.map (squashedEntry base) := by
  simp [squashConfigs, foldl_squashConfig]

/-! ## The claims on `squashPresubmitsConfigs` and `squashConfigs` -/

/-- C6 as stated fails: a repository whose job list is the same in base and head,
with two jobs of one name and different `Spec`, keeps both jobs in the squashed
map. -/
theorem squashPresubmitsConfigs_unchanged_counterexample :
    GoMap.get [("foo/bar", [dontTouch, jobWithSpec "dont-touch" "golang"])] "foo/bar"
        = some [dontTouch, jobWithSpec "dont-touch" "golang"] ∧
      GoMap.get (squashPresubmitsConfigs
          [("foo/bar", [dontTouch, jobWithSpec "dont-touch" "golang"])]
          [("foo/bar", [dontTouch, jobWithSpec "dont-touch" "golang"])]) "foo/bar"
        = some [dontTouch, jobWithSpec "dont-touch" "golang"] := by
  decide

/-- C6, amended: the keys of `squashPresubmitsConfigs base head` are the
repositories of head; a repository absent from base keeps its head list, a
repository of both maps has the entry `squashPresubmits base[repo] head[repo]`,
and that entry holds no job when the list of the repository is the same in base
and head and its jobs of one name have deep-equal `Spec` (so when its job names
are distinct). -/
theorem squashPresubmitsConfigs_entries (base head : GoMap (List Presubmit))
    (hwf : GoMap.WF head) :
    (∀ repo, repo ∈ GoMap.keys (squashPresubmitsConfigs base head) ↔ repo ∈ GoMap.keys head) ∧
      GoMap.WF (squashPresubmitsConfigs base head) ∧
      (∀ repo hp, GoMap.get head repo = some hp → GoMap.get base repo = none →
        GoMap.get (squashPresubmitsConfigs base head) repo = some hp) ∧
      (∀ repo hp bp, GoMap.get head repo = some hp → GoMap.get base repo = some bp →
        GoMap.get (squashPresubmitsConfigs base head) repo
          = some (squashPresubmits bp hp)) ∧
      (∀ repo l, GoMap.get head repo = some l → GoMap.get base repo = some l →
        (∀ a ∈ l, ∀ b ∈ l, a.Name = b.Name → a.Spec = b.Spec) →
        GoMap.get (squashPresubmitsConfigs base head) repo = some []) := by
  refine ⟨?_, ?_, ?_, ?_, ?_⟩
  · intro repo
    rw [GoMap.mem_keys_iff, GoMap.mem_keys_iff, get_squashPresubmitsConfigs base head hwf]
    cases GoMap.get head repo <;> simp
  · exact wf_foldl_squashRepo base head [] (by simp [GoMap.WF, GoMap.keys])
  · intro repo hp hh hb
    rw [get_squashPresubmitsConfigs base head hwf, hh]
    simp [squashedRepo, hb]
  · intro repo hp bp hh hb
    rw [get_squashPresubmitsConfigs base head hwf, hh]
    simp [squashedRepo, hb]
  · intro repo l hh hb hl
    rw [get_squashPresubmitsConfigs base head hwf, hh]
    simp [squashedRepo, hb, squashPresubmits_self l hl]

theorem squashPresubmitsConfigs_entries_witness :
    GoMap.WF testModifiedPresubmits ∧
      ("foo/new" ∈ GoMap.keys
          (squashPresubmitsConfigs testOriginalPresubmits testModifiedPresubmits) ↔
        "foo/new" ∈ GoMap.keys testModifiedPresubmits) ∧
      GoMap.get (squashPresubmitsConfigs testOriginalPresubmits testModifiedPresubmits)
        "foo/new" = some [dontTouch] ∧
      GoMap.get (squashPresubmitsConfigs testOriginalPresubmits testModifiedPresubmits)
        "foo/baz" = some (squashPresubmits [dontTouch] [dontTouch, newJob]) ∧
      GoMap.get (squashPresubmitsConfigs testOriginalPresubmits testOriginalPresubmits)
        "foo/bar" = some [] :=
  ⟨by decide,
    (squashPresubmitsConfigs_entries testOriginalPresubmits testModifiedPresubmits
      (by decide)).1 "foo/new",
    (squashPresubmitsConfigs_entries testOriginalPresubmits testModifiedPresubmits
      (by decide)).2.2.1 "foo/new" [dontTouch] (by decide) (by decide),
    (squashPresubmitsConfigs_entries testOriginalPresubmits testModifiedPresubmits
      (by decide)).2.2.2.1 "foo/baz" [dontTouch, newJob] [dontTouch] (by decide) (by decide),
    (squashPresubmitsConfigs_entries testOriginalPresubmits testOriginalPresubmits
      (by decide)).2.2.2.2 "foo/bar" [dontTouch, modifySomething 1] (by decide) (by decide)
      (by decide)⟩

theorem newOrModified_iff_of_agree (bl : List Presubmit) (j : Presubmit)
    (hbl : ∀ a ∈ bl, ∀ b ∈ bl, a.Name = b.Name → a.Spec = b.Spec) :
    ((∀ b ∈ bl, b.Name ≠ j.Name) ∨ ∃ b ∈ bl, b.Name = j.Name ∧ b.Spec ≠ j.Spec) ↔
      NewOrModified bl j := by
  unfold NewOrModified
  constructor
  · rintro (hnew | ⟨b, hb, hn, hs⟩)
    · exact Or.inl hnew
    · refine Or.inr ⟨⟨b, hb, hn⟩, ?_⟩
      intro b' hb' hn' he
      exact hs ((hbl b hb b' hb' (hn.trans hn'.symm)).trans he)
  · rintro (hnew | ⟨⟨b, hb, hn⟩, hall⟩)
    · exact Or.inl hnew
    · exact Or.inr ⟨b, hb, hn, hall b hb hn⟩

/-- C7 as stated fails: with the same configuration in base and head, whose one
repository holds two jobs of one name and different `Spec`, the result keeps the
job `dont-touch`, which base holds with the same name and `Spec` and which is so
neither new nor modified. -/
theorem squashConfigs_only_new_or_modified_counterexample :
    squashConfigs repeatedConfigs repeatedConfigs =
        [{ PresubmitsStatic := [("foo/bar", repeatedJobs)]
           PostsubmitsStatic := []
           Periodics := [] }] ∧
      dontTouch ∈ repeatedJobs ∧ ¬ NewOrModified repeatedJobs dontTouch := by
  decide

/-- C7, amended: `squashConfigs base head` holds one configuration per entry of
head, in the order in which the head map is visited (for another order of visit,
a permutation of them): the head configuration itself for a path without base
counterpart, and otherwise the zero configuration with the job map
`squashPresubmitsConfigs` of the two job maps. In that job map a repository
absent from base keeps its head list, and a repository of both maps keeps
exactly the head jobs that have no base job of their name or differ in `Spec`
from one base job of their name; these are exactly the new and modified head
jobs when the base jobs of one name have deep-equal `Spec` (so when the base job
names are distinct). -/
theorem squashConfigs_entries (base head head' : GoMap Config) (hperm : head.Perm head') :
    (squashConfigs base head).length = head.length ∧
      (squashConfigs base head').Perm (squashConfigs base head) ∧
      (∀ (i : Nat) (path : String) (hc : Config), head[i]? = some (path, hc) →
        GoMap.get base path = none → (squashConfigs base head)[i]? = some hc) ∧
      (∀ (i : Nat) (path : String) (hc bc : Config), head[i]? = some (path, hc) →
        GoMap.get base path = some bc →
        (squashConfigs base head)[i]? =
          some ({ PresubmitsStatic :=
                    squashPresubmitsConfigs bc.PresubmitsStatic hc.PresubmitsStatic
                  PostsubmitsStatic := []
                  Periodics := [] } : Config)) ∧
      (∀ (path : String) (hc bc : Config), (path, hc) ∈ head → GoMap.get base path = some bc →
        GoMap.WF hc.PresubmitsStatic →
        ∀ repo hl, GoMap.get hc.PresubmitsStatic repo = some hl →
          (GoMap.get bc.PresubmitsStatic repo = none →
            GoMap.get (squashPresubmitsConfigs bc.PresubmitsStatic hc.PresubmitsStatic) repo
              = some hl) ∧
          (∀ bl, GoMap.get bc.PresubmitsStatic repo = some bl →
            GoMap.get (squashPresubmitsConfigs bc.PresubmitsStatic hc.PresubmitsStatic) repo
              = some (squashPresubmits bl hl) ∧
            (∀ j, j ∈ squashPresubmits bl hl ↔
              j ∈ hl ∧ ((∀ b ∈ bl, b.Name ≠ j.Name) ∨
                ∃ b ∈ bl, b.Name = j.Name ∧ b.Spec ≠ j.Spec)) ∧
            ((∀ a ∈ bl, ∀ b ∈ bl, a.Name = b.Name → a.Spec = b.Spec) →
              ∀ j, j ∈ squashPresubmits bl hl ↔ j ∈ hl ∧ NewOrModified bl j))) := by
  refine ⟨?_, ?_, ?_, ?_, ?_⟩
  · simp [squashConfigs_eq]
  · rw [squashConfigs_eq, squashConfigs_eq]
    exact (hperm.map _).symm
  · intro i path hc hi hb
    rw [squashConfigs_eq, List.getElem?_map, hi]
    simp [squashedEntry, hb]
  · intro i path hc bc hi hb
    rw [squashConfigs_eq, List.getElem?_map, hi]
    simp [squashedEntry, hb, Config.zero]
  · intro path hc bc _ _ hwf repo hl hh
    refine ⟨?_, ?_⟩
    · intro hb
      rw [get_squashPresubmitsConfigs _ _ hwf, hh]
      simp [squashedRepo, hb]
    · intro bl hb
      refine ⟨?_, ?_, ?_⟩
      · rw [get_squashPresubmitsConfigs _ _ hwf, hh]
        simp [squashedRepo, hb]
      · intro j
        exact mem_squashPresubmits bl hl j
      · intro hbl j
        rw [mem_squashPresubmits, newOrModified_iff_of_agree bl j hbl]

theorem squashConfigs_entries_witness :
    testModifiedConfigs.Perm testModifiedConfigs.reverse ∧
      (squashConfigs testOriginalConfigs testModifiedConfigs).length
        = testModifiedConfigs.length ∧
      (squashConfigs testOriginalConfigs testModifiedConfigs.reverse).Perm
        (squashConfigs testOriginalConfigs testModifiedConfigs) ∧
      (squashConfigs testOriginalConfigs testModifiedConfigs)[1]? = some addedConfig ∧
      (squashConfigs testOriginalConfigs testModifiedConfigs)[0]? =
        some ({ PresubmitsStatic :=
                  squashPresubmitsConfigs testOriginalPresubmits modifiedConfig.PresubmitsStatic
                PostsubmitsStatic := []
                Periodics := [] } : Config) ∧
      GoMap.get (squashPresubmitsConfigs testOriginalPresubmits
        modifiedConfig.PresubmitsStatic) "foo/new" = some [dontTouch] ∧
      GoMap.get (squashPresubmitsConfigs testOriginalPresubmits
        modifiedConfig.PresubmitsStatic) "foo/baz"
          = some (squashPresubmits [dontTouch] [dontTouch, newJob]) ∧
      newJob ∈ squashPresubmits [dontTouch] [dontTouch, newJob] ∧
      (dontTouch ∈ squashPresubmits [dontTouch] [dontTouch, newJob] ↔
        dontTouch ∈ [dontTouch, newJob] ∧ NewOrModified [dontTouch] dontTouch) :=
  ⟨by decide,
    (squashConfigs_entries testOriginalConfigs testModifiedConfigs
      testModifiedConfigs.reverse (by decide)).1,
    (squashConfigs_entries testOriginalConfigs testModifiedConfigs
      testModifiedConfigs.reverse (by decide)).2.1,
    (squashConfigs_entries testOriginalConfigs testModifiedConfigs
      testModifiedConfigs.reverse (by decide)).2.2.1 1 "foo/added" addedConfig
      (by decide) (by decide),
    (squashConfigs_entries testOriginalConfigs testModifiedConfigs
      testModifiedConfigs.reverse (by decide)).2.2.2.1 0 "foo/path" modifiedConfig
      { Config.zero with PresubmitsStatic := testOriginalPresubmits } (by decide) (by decide),
    ((squashConfigs_entries testOriginalConfigs testModifiedConfigs
      testModifiedConfigs.reverse (by decide)).2.2.2.2 "foo/path" modifiedConfig
      { Config.zero with PresubmitsStatic := testOriginalPresubmits } (by decide) (by decide)
      (by decide) "foo/new" [dontTouch] (by decide)).1 (by decide),
    (((squashConfigs_entries testOriginalConfigs testModifiedConfigs
      testModifiedConfigs.reverse (by decide)).2.2.2.2 "foo/path" modifiedConfig
      { Config.zero with PresubmitsStatic := testOriginalPresubmits } (by decide) (by decide)
      (by decide) "foo/baz" [dontTouch, newJob] (by decide)).2 [dontTouch] (by decide)).1,
    ((((squashConfigs_entries testOriginalConfigs testModifiedConfigs
      testModifiedConfigs.reverse (by decide)).2.2.2.2 "foo/path" modifiedConfig
      { Config.zero with PresubmitsStatic := testOriginalPresubmits } (by decide) (by decide)
      (by decide) "foo/baz" [dontTouch, newJob] (by decide)).2 [dontTouch]
      (by decide)).2.1 newJob).mpr (by decide),
    (((squashConfigs_entries testOriginalConfigs testModifiedConfigs
      testModifiedConfigs.reverse (by decide)).2.2.2.2 "foo/path" modifiedConfig
      { Config.zero with PresubmitsStatic := testOriginalPresubmits } (by decide) (by decide)
      (by decide) "foo/baz" [dontTouch, newJob] (by decide)).2 [dontTouch]
      (by decide)).2.2 (by decide) dontTouch⟩

/-! ## Lemmas on `addRepoRef` -/

theorem splitFrom_cons (sep : Char) (cur s : List Char) :
    splitFrom sep cur s = (cur ++ upToSep sep s) ::
      (if sep ∈ s then splitFrom sep [] (afterSep sep s) else []) := by
  induction s generalizing cur with
  | nil => simp [splitFrom, upToSep]
  | cons c cs ih =>
    by_cases hc : c = sep
    · subst hc
      simp [splitFrom, upToSep, afterSep]
    · have hne : ¬ sep = c := fun e => hc e.symm
      simp only [splitFrom, hc, if_false]
      rw [ih]
      simp [upToSep, afterSep, hc, hne, List.append_assoc]

theorem splitFrom_zero (sep : Char) (s : List Char) :
    (splitFrom sep [] s)[0]? = some (upToSep sep s) := by
  rw [splitFrom_cons]; simp

theorem splitFrom_one (sep : Char) (s : List Char) :
    (splitFrom sep [] s)[1]? =
      if sep ∈ s then some (upToSep sep (afterSep sep s)) else none := by
  rw [splitFrom_cons]
  by_cases h : sep ∈ s
  · simp only [h, if_true, List.getElem?_cons_succ]
    exact splitFrom_zero sep _
  · simp [h]

theorem upToSep_append_afterSep (sep : Char) (s : List Char) (h : sep ∈ s) :
    s = upToSep sep s ++ sep :: afterSep sep s := by
  induction s with
  | nil => simp at h
  | cons c cs ih =>
    by_cases hc : c = sep
    · subst hc
      simp [upToSep, afterSep]
    · have hne : ¬ sep = c := fun e => hc e.symm
      have hm : sep ∈ cs := by
        rcases List.mem_cons.mp h with h1 | h1
        · exact absurd h1 hne
        · exact h1
      have := ih hm
      simp only [upToSep, afterSep] at this ⊢
      simp only [hc, List.takeWhile_cons, List.dropWhile_cons, ne_eq, not_false_eq_true,
        decide_True, if_true, List.cons_append]
      exact congrArg (List.cons c) this

theorem upToSep_of_not_mem (sep : Char) (s : List Char) (h : sep ∉ s) : upToSep sep s = s := by
  unfold upToSep
  rw [List.takeWhile_eq_self_iff]
  intro c hc
  have : c ≠ sep := fun e => h (e ▸ hc)
  simpa using this

theorem shouldSetWorkDir_eq (refs : List Refs) :
    shouldSetWorkDir refs = !refs.any (fun r => r.WorkDir) := by
  induction refs with
  | nil => rfl
  | cons r rest ih =>
    by_cases hr : r.WorkDir = true
    · simp [shouldSetWorkDir, hr]
    · simp [shouldSetWorkDir, hr, ih]

theorem addRepoRef_eq (prowJob : ProwJob) (repo : String) :
    addRepoRef prowJob repo =
      if '/' ∈ repo.data then
        some { prowJob with
          Spec := { prowJob.Spec with
            ExtraRefs := prowJob.Spec.ExtraRefs ++ [repoRef prowJob repo] } }
      else none := by
  unfold addRepoRef stringsSplit
  simp only [List.getElem?_map, splitFrom_zero, splitFrom_one]
  by_cases h : '/' ∈ repo.data
  · simp [h, repoRef]
  · simp [h]

theorem not_mem_afterSep_of_count (sep : Char) (s : List Char) (h : s.count sep = 1) :
    sep ∈ s ∧ sep ∉ afterSep sep s := by
  have hm : sep ∈ s := by
    rw [← List.count_pos_iff]; omega
  refine ⟨hm, ?_⟩
  have hs := upToSep_append_afterSep sep s hm
  have h0 : (upToSep sep s).count sep = 0 := by
    rw [List.count_eq_zero]
    intro hc
    have := List.mem_takeWhile_imp hc
    simp at this
  rw [hs, List.count_append, List.count_cons_self, h0] at h
  rw [← List.count_eq_zero]
  omega

/-! ## The claims on `addRepoRef` -/

/-- C8: for a repository identifier with one `/`, `addRepoRef` appends one
reference behind the extra references of the job and changes nothing else; the
appended reference has `WorkDir` true when no extra reference of the job had it
true, and false when one had. -/
theorem addRepoRef_appends_one (prowJob : ProwJob) (repo : String)
    (hform : repo.data.count '/' = 1) :
    ∃ ref, addRepoRef prowJob repo =
        some { Name := prowJob.Name
               Spec := { Job := prowJob.Spec.Job
                         ExtraRefs := prowJob.Spec.ExtraRefs ++ [ref] } } ∧
      ((∀ r ∈ prowJob.Spec.ExtraRefs, r.WorkDir = false) → ref.WorkDir = true) ∧
      ((∃ r ∈ prowJob.Spec.ExtraRefs, r.WorkDir = true) → ref.WorkDir = false) := by
  have hm := (not_mem_afterSep_of_count '/' repo.data hform).1
  refine ⟨repoRef prowJob repo, ?_, ?_, ?_⟩
  · rw [addRepoRef_eq, if_pos hm]
  · intro hall
    simp only [repoRef, shouldSetWorkDir_eq]
    simp only [Bool.not_eq_true', List.any_eq_false]
    intro r hr
    simp [hall r hr]
  · rintro ⟨r, hr, hw⟩
    simp only [repoRef, shouldSetWorkDir_eq]
    simp only [Bool.not_eq_false', List.any_eq_true]
    exact ⟨r, hr, hw⟩

theorem addRepoRef_appends_one_witness :
    "foo/bar".data.count '/' = 1 ∧
      ∃ ref, addRepoRef jobWithWorkDir "foo/bar" =
          some { Name := jobWithWorkDir.Name
                 Spec := { Job := jobWithWorkDir.Spec.Job
                           ExtraRefs := jobWithWorkDir.Spec.ExtraRefs ++ [ref] } } ∧
        ((∀ r ∈ jobWithWorkDir.Spec.ExtraRefs, r.WorkDir = false) → ref.WorkDir = true) ∧
        ((∃ r ∈ jobWithWorkDir.Spec.ExtraRefs, r.WorkDir = true) → ref.WorkDir = false) :=
  ⟨by decide, addRepoRef_appends_one jobWithWorkDir "foo/bar" (by decide)⟩

/-- C10: `addRepoRef` completes exactly when the repository identifier holds a
`/`, and faults on an identifier without one; when it completes, the organization
of the appended reference is the text before the first `/` and its repository
name the text between the first and the second `/` (or the end), so that for an
identifier with one `/` organization, `/` and name make up the identifier. -/
theorem addRepoRef_completes_iff (prowJob : ProwJob) (repo : String) :
    ((addRepoRef prowJob repo).isSome = true ↔ '/' ∈ repo.data) ∧
      ('/' ∉ repo.data → addRepoRef prowJob repo = none) ∧
      ('/' ∈ repo.data → ∃ ref, addRepoRef prowJob repo =
          some { Name := prowJob.Name
                 Spec := { Job := prowJob.Spec.Job
                           ExtraRefs := prowJob.Spec.ExtraRefs ++ [ref] } } ∧
        ref.Org = String.mk (repo.data.takeWhile (fun c => decide (c ≠ '/'))) ∧
        ref.Repo = String.mk
          (((repo.data.dropWhile (fun c => decide (c ≠ '/'))).drop 1).takeWhile
            (fun c => decide (c ≠ '/'))) ∧
        (repo.data.count '/' = 1 → ref.Org ++ "/" ++ ref.Repo = repo)) := by
  refine ⟨?_, ?_, ?_⟩
  · rw [addRepoRef_eq]
    by_cases h : '/' ∈ repo.data <;> simp [h]
  · intro h
    rw [addRepoRef_eq, if_neg h]
  · intro h
    refine ⟨repoRef prowJob repo, ?_, rfl, rfl, ?_⟩
    · rw [addRepoRef_eq, if_pos h]
    · intro hc
      have hn := (not_mem_afterSep_of_count '/' repo.data hc).2
      have hs := upToSep_append_afterSep '/' repo.data h
      apply String.ext
      simp only [repoRef, String.data_append, upToSep_of_not_mem '/' _ hn,
        List.append_assoc, List.singleton_append]
      exact hs.symm

theorem addRepoRef_completes_iff_witness :
    '/' ∈ "foo/bar".data ∧ "foo/bar".data.count '/' = 1 ∧ '/' ∉ "foobar".data ∧
      (addRepoRef jobWithWorkDir "foo/bar").isSome = true ∧
      addRepoRef jobWithWorkDir "foobar" = none ∧
      (∃ ref, addRepoRef jobWithWorkDir "foo/bar" =
          some { Name := jobWithWorkDir.Name
                 Spec := { Job := jobWithWorkDir.Spec.Job
                           ExtraRefs := jobWithWorkDir.Spec.ExtraRefs ++ [ref] } } ∧
        ref.Org = String.mk ("foo/bar".data.takeWhile (fun c => decide (c ≠ '/'))) ∧
        ref.Repo = String.mk
          ((("foo/bar".data.dropWhile (fun c => decide (c ≠ '/'))).drop 1).takeWhile
            (fun c => decide (c ≠ '/'))) ∧
        ("foo/bar".data.count '/' = 1 → ref.Org ++ "/" ++ ref.Repo = "foo/bar")) :=
  ⟨by decide, by decide, by decide,
    (addRepoRef_completes_iff jobWithWorkDir "foo/bar").1.mpr (by decide),
    (addRepoRef_completes_iff jobWithWorkDir "foobar").2.1 (by decide),
    (addRepoRef_completes_iff jobWithWorkDir "foo/bar").2.2 (by decide)⟩

/-! ## The event handler: failures of the first steps -/

theorem M.bind_eq {α β : Type} (x : M α) (f : α → M β) : (x >>= f) = M.bind x f := rfl

theorem M.pure_eq {α : Type} (a : α) : (pure a : M α) = ([], Flow.next a) := rfl

/-- C9: when the creation of the working directory, `git init`, the fetch, the
merge-base computation or one of the two enumerations of changed files fails, the
run ends with the fatal log entry of that step: its trace holds the steps up to
the failing one and nothing behind the entry, so no job is generated or written.
A merge-base command without output ends the run as well, by a recovered panic. -/
theorem HandlePullRequestEvent_aborts (w : World) (event : PullRequestEvent)
    (prowConfigPath jobConfigPatterns wd : String) :
    (∀ err, w.TempDir (workRoot w wd) gitDirPrefix = Except.error err →
      HandlePullRequestEvent w event prowConfigPath jobConfigPatterns wd =
        ([Event.tempDir (workRoot w wd) gitDirPrefix,
          Event.fatal "could not initialize working directory"], Outcome.exited)) ∧
    (∀ workDir err, w.TempDir (workRoot w wd) gitDirPrefix = Except.ok workDir →
      w.Git (initArgs workDir) = Except.error err →
      HandlePullRequestEvent w event prowConfigPath jobConfigPatterns wd =
        ([Event.tempDir (workRoot w wd) gitDirPrefix, Event.git (initArgs workDir),
          Event.fatal "could not initialize git repo"], Outcome.exited)) ∧
    (∀ workDir o1 err, w.TempDir (workRoot w wd) gitDirPrefix = Except.ok workDir →
      w.Git (initArgs workDir) = Except.ok o1 →
      w.Git (fetchArgs workDir event.PullRequest) = Except.error err →
      HandlePullRequestEvent w event prowConfigPath jobConfigPatterns wd =
        ([Event.tempDir (workRoot w wd) gitDirPrefix, Event.git (initArgs workDir),
          Event.git (fetchArgs workDir event.PullRequest),
          Event.fatal "could not fetch pull request"], Outcome.exited)) ∧
    (∀ workDir o1 o2 err, w.TempDir (workRoot w wd) gitDirPrefix = Except.ok workDir →
      w.Git (initArgs workDir) = Except.ok o1 →
      w.Git (fetchArgs workDir event.PullRequest) = Except.ok o2 →
      w.Git (mergeBaseArgs workDir) = Except.error err →
      HandlePullRequestEvent w event prowConfigPath jobConfigPatterns wd =
        ([Event.tempDir (workRoot w wd) gitDirPrefix, Event.git (initArgs workDir),
          Event.git (fetchArgs workDir event.PullRequest), Event.git (mergeBaseArgs workDir),
          Event.fatal "could not find merge base for the pull request"], Outcome.exited)) ∧
    (∀ workDir o1 o2 o3 mb err, w.TempDir (workRoot w wd) gitDirPrefix = Except.ok workDir →
      w.Git (initArgs workDir) = Except.ok o1 →
      w.Git (fetchArgs workDir event.PullRequest) = Except.ok o2 →
      w.Git (mergeBaseArgs workDir) = Except.ok o3 → (stringsFields o3)[0]? = some mb →
      w.Git (diffArgs workDir mb "M" jobConfigPatterns) = Except.error err →
      HandlePullRequestEvent w event prowConfigPath jobConfigPatterns wd =
        ([Event.tempDir (workRoot w wd) gitDirPrefix, Event.git (initArgs workDir),
          Event.git (fetchArgs workDir event.PullRequest), Event.git (mergeBaseArgs workDir),
          Event.git (diffArgs workDir mb "M" jobConfigPatterns),
          Event.fatal "could not extract modified files"], Outcome.exited)) ∧
    (∀ workDir o1 o2 o3 mb o4 err, w.TempDir (workRoot w wd) gitDirPrefix = Except.ok workDir →
      w.Git (initArgs workDir) = Except.ok o1 →
      w.Git (fetchArgs workDir event.PullRequest) = Except.ok o2 →
      w.Git (mergeBaseArgs workDir) = Except.ok o3 → (stringsFields o3)[0]? = some mb →
      w.Git (diffArgs workDir mb "M" jobConfigPatterns) = Except.ok o4 →
      w.Git (diffArgs workDir mb "A" jobConfigPatterns) = Except.error err →
      HandlePullRequestEvent w event prowConfigPath jobConfigPatterns wd =
        ([Event.tempDir (workRoot w wd) gitDirPrefix, Event.git (initArgs workDir),
          Event.git (fetchArgs workDir event.PullRequest), Event.git (mergeBaseArgs workDir),
          Event.git (diffArgs workDir mb "M" jobConfigPatterns),
          Event.git (diffArgs workDir mb "A" jobConfigPatterns),
          Event.fatal "could not extract newly added files"], Outcome.exited)) ∧
    (∀ workDir o1 o2 o3, w.TempDir (workRoot w wd) gitDirPrefix = Except.ok workDir →
      w.Git (initArgs workDir) = Except.ok o1 →
      w.Git (fetchArgs workDir event.PullRequest) = Except.ok o2 →
      w.Git (mergeBaseArgs workDir) = Except.ok o3 → (stringsFields o3)[0]? = none →
      HandlePullRequestEvent w event prowConfigPath jobConfigPatterns wd =
        ([Event.tempDir (workRoot w wd) gitDirPrefix, Event.git (initArgs workDir),
          Event.git (fetchArgs workDir event.PullRequest), Event.git (mergeBaseArgs workDir),
          Event.removeAll workDir, Event.logPanic], Outcome.recovered)) := by
  refine ⟨?_, ?_, ?_, ?_, ?_, ?_, ?_⟩
  · intro err h
    simp only [workRoot] at h
    simp [HandlePullRequestEvent, handleBody, makeWorkingDirectory, call, Fatal, ret,
      M.bind_eq, M.bind, M.pure_eq, h, workRoot]
  · intro workDir err h h1
    simp only [workRoot, initArgs] at h h1
    simp [HandlePullRequestEvent, handleBody, handleIn, makeWorkingDirectory, InitRepo, Git,
      call, Fatal, ret, deferring, M.bind_eq, M.bind, M.pure_eq, h, h1, workRoot, initArgs]
  · intro workDir o1 err h h1 h2
    simp only [workRoot, initArgs, fetchArgs] at h h1 h2
    simp [HandlePullRequestEvent, handleBody, handleIn, makeWorkingDirectory, InitRepo,
      FetchPullRequest, Git, call, Fatal, ret, deferring, M.bind_eq, M.bind, M.pure_eq,
      h, h1, h2, workRoot, initArgs, fetchArgs]
  · intro workDir o1 o2 err h h1 h2 h3
    simp only [workRoot, initArgs, fetchArgs, mergeBaseArgs] at h h1 h2 h3
    simp [HandlePullRequestEvent, handleBody, handleIn, makeWorkingDirectory, InitRepo,
      FetchPullRequest, MergeBase, Git, call, Fatal, ret, deferring, M.bind_eq, M.bind,
      M.pure_eq, h, h1, h2, h3, workRoot, initArgs, fetchArgs, mergeBaseArgs]
  · intro workDir o1 o2 o3 mb err h h1 h2 h3 h3' h4
    simp only [workRoot, initArgs, fetchArgs, mergeBaseArgs, diffArgs] at h h1 h2 h3 h4
    simp at h4
    simp [HandlePullRequestEvent, handleBody, handleIn, makeWorkingDirectory, InitRepo,
      FetchPullRequest, MergeBase, ChangedFiles, Git, call, Fatal, ret, deferring, M.bind_eq,
      M.bind, M.pure_eq, h, h1, h2, h3, h3', h4, workRoot, initArgs, fetchArgs,
      mergeBaseArgs, diffArgs]
  · intro workDir o1 o2 o3 mb o4 err h h1 h2 h3 h3' h4 h5
    simp only [workRoot, initArgs, fetchArgs, mergeBaseArgs, diffArgs] at h h1 h2 h3 h4 h5
    simp at h4 h5
    simp [HandlePullRequestEvent, handleBody, handleIn, makeWorkingDirectory, InitRepo,
      FetchPullRequest, MergeBase, ChangedFiles, Git, call, Fatal, ret, deferring, M.bind_eq,
      M.bind, M.pure_eq, h, h1, h2, h3, h3', h4, h5, workRoot, initArgs, fetchArgs,
      mergeBaseArgs, diffArgs]
  · intro workDir o1 o2 o3 h h1 h2 h3 h3'
    simp only [workRoot, initArgs, fetchArgs, mergeBaseArgs] at h h1 h2 h3
    simp [HandlePullRequestEvent, handleBody, handleIn, makeWorkingDirectory, InitRepo,
      FetchPullRequest, MergeBase, Git, call, goPanic, deferring, M.bind_eq, M.bind,
      M.pure_eq, h, h1, h2, h3, h3', workRoot, initArgs, fetchArgs, mergeBaseArgs]

theorem HandlePullRequestEvent_aborts_witness :
    (HandlePullRequestEvent (failingWorld "tempdir") testEvent "config.yaml" "jobs" "").2
        = Outcome.exited ∧
      (HandlePullRequestEvent (failingWorld "init") testEvent "config.yaml" "jobs" "").2
        = Outcome.exited ∧
      (HandlePullRequestEvent (failingWorld "fetch") testEvent "config.yaml" "jobs" "").2
        = Outcome.exited ∧
      (HandlePullRequestEvent (failingWorld "merge-base") testEvent "config.yaml" "jobs" "").2
        = Outcome.exited ∧
      (HandlePullRequestEvent (failingWorld "--diff-filter=M") testEvent "config.yaml" "jobs"
        "").2 = Outcome.exited ∧
      (HandlePullRequestEvent (failingWorld "--diff-filter=A") testEvent "config.yaml" "jobs"
        "").2 = Outcome.exited ∧
      written (HandlePullRequestEvent (failingWorld "merge-base") testEvent "config.yaml"
        "jobs" "").1 = [] ∧
      generated (HandlePullRequestEvent (failingWorld "merge-base") testEvent "config.yaml"
        "jobs" "").1 = [] :=
  ⟨congrArg Prod.snd ((HandlePullRequestEvent_aborts (failingWorld "tempdir") testEvent
      "config.yaml" "jobs" "").1 "failed" rfl),
    congrArg Prod.snd ((HandlePullRequestEvent_aborts (failingWorld "init") testEvent
      "config.yaml" "jobs" "").2.1 "/tmp/prowjob_experiment_1" "failed" rfl rfl),
    congrArg Prod.snd ((HandlePullRequestEvent_aborts (failingWorld "fetch") testEvent
      "config.yaml" "jobs" "").2.2.1 "/tmp/prowjob_experiment_1" "c0ffee" "failed" rfl rfl rfl),
    congrArg Prod.snd ((HandlePullRequestEvent_aborts (failingWorld "merge-base") testEvent
      "config.yaml" "jobs" "").2.2.2.1 "/tmp/prowjob_experiment_1" "c0ffee" "c0ffee" "failed"
      rfl rfl rfl rfl),
    congrArg Prod.snd ((HandlePullRequestEvent_aborts (failingWorld "--diff-filter=M") testEvent
      "config.yaml" "jobs" "").2.2.2.2.1 "/tmp/prowjob_experiment_1" "c0ffee" "c0ffee"
      "c0ffee" "c0ffee" "failed" rfl rfl rfl rfl rfl rfl),
    congrArg Prod.snd ((HandlePullRequestEvent_aborts (failingWorld "--diff-filter=A") testEvent
      "config.yaml" "jobs" "").2.2.2.2.2.1 "/tmp/prowjob_experiment_1" "c0ffee" "c0ffee"
      "c0ffee" "c0ffee" "c0ffee" "failed" rfl rfl rfl rfl rfl rfl rfl),
    by
      rw [(HandlePullRequestEvent_aborts (failingWorld "merge-base") testEvent
        "config.yaml" "jobs" "").2.2.2.1 "/tmp/prowjob_experiment_1" "c0ffee" "c0ffee" "failed"
        rfl rfl rfl rfl]
      rfl,
    by
      rw [(HandlePullRequestEvent_aborts (failingWorld "merge-base") testEvent
        "config.yaml" "jobs" "").2.2.2.1 "/tmp/prowjob_experiment_1" "c0ffee" "c0ffee" "failed"
        rfl rfl rfl rfl]
      rfl⟩

end Experiment
